import Mathlib

/-
  Verification of the spin-button value-composition core and the
  documentation-site components of the react-md excerpt.

  The data model follows src/spinbutton/types.ts; the Digit Accumulator /
  Value Handler Adapter behavior (the useSpinValue hook) is not among the
  excerpted sources, so it is modelled from the specification, as marked
  on each such definition.
-/

namespace SpinButton

/-- The result of the suggestion function, from `SpinValueNextResult` in
src/spinbutton/types.ts: a required `value` string and an optional
`completed` boolean (optionality is modelled with `Option Bool`). -/
structure SpinValueNextResult where
  value : String
  completed : Option Bool := none
deriving DecidableEq, Repr

/-- The suggestion-function type, from `GetSpinValueNextResult` in
src/spinbutton/types.ts: maps the accumulated keys and the current
stringified value to the next result. -/
abbrev GetSpinValueNextResult := List Nat → String → SpinValueNextResult

/-- Modelled from the spec: the observable state of one spin-button
control — the KeySequence of typed digits, the current ValueState string,
and the log of results delivered to the Completion Notifier (the
`onCompleted` callback of `BaseSpinButtonOptions`); the list records one
entry per notifier invocation. -/
structure SpinState where
  keys : List Nat
  value : String
  completions : List SpinValueNextResult
deriving DecidableEq, Repr

/-- The control state before any event: empty KeySequence, empty value,
no completion-notifier invocations. -/
def initState : SpinState :=
  { keys := [], value := "", completions := [] }

/-- Numeric value of a digit key character. -/
def digitOf (c : Char) : Nat := c.toNat - 48

/-- Modelled from the spec: the Digit Accumulator step of the missing
`useSpinValue` hook (only its typed contracts are under src/). A numeric
digit is appended to the KeySequence, the suggestion function is invoked
with the full KeySequence and the prior ValueState, the returned value
becomes the new ValueState; on `completed: true` the KeySequence is
cleared and the Completion Notifier receives the result. Non-digit keys
leave the state unchanged. -/
def handleKeyDown (onSuggest : GetSpinValueNextResult) (s : SpinState)
    (key : Char) : SpinState :=
  if key.isDigit then
    let keys := s.keys ++ [digitOf key]
    let result := onSuggest keys s.value
    if result.completed = some true then
      { keys := [], value := result.value,
        completions := s.completions ++ [result] }
    else
      { keys := keys, value := result.value,
        completions := s.completions }
  else
    s

/-- Modelled from the spec: the focus handler of the Value Handler
Adapter resets the KeySequence. -/
def handleFocus (s : SpinState) : SpinState :=
  { s with keys := [] }

/-- Modelled from the spec: the change handler of the Value Handler
Adapter — an external programmatic value set bypasses the accumulator and
resets the KeySequence. -/
def handleChange (s : SpinState) (newValue : String) : SpinState :=
  { s with keys := [], value := newValue }

/-- Processing a whole key sequence is the fold of the key-down step. -/
def processKeys (onSuggest : GetSpinValueNextResult) (s : SpinState)
    (ks : List Char) : SpinState :=
  ks.foldl (handleKeyDown onSuggest) s

/-- Numeric value of an accumulated digit sequence. -/
def keysToNat (keys : List Nat) : Nat :=
  keys.foldl (fun a d => a * 10 + d) 0

/-- Modelled from the spec: a range-respecting suggestion function (the
concrete suggestion functions shipped with the hook are not under src/).
A candidate past `max` wraps to `min` when loopable and is clamped to
`max` otherwise; a candidate below `min` wraps to `max` when loopable and
is clamped to `min` otherwise; an in-range candidate is kept, completed
exactly when no further digit could extend it without exceeding `max`. -/
def specSuggest (mn mx : Nat) (loopable : Bool) (keys : List Nat)
    (_value : String) : SpinValueNextResult :=
  let candidate := keysToNat keys
  if mx < candidate then
    if loopable then { value := toString mn, completed := some true }
    else { value := toString mx, completed := some true }
  else if candidate < mn then
    if loopable then { value := toString mx, completed := some true }
    else { value := toString mn, completed := none }
  else
    { value := toString candidate,
      completed := if mx < candidate * 10 then some true else none }

theorem specSuggest_in_range (mn mx : Nat) (lp : Bool) (ks : List Nat)
    (v : String) (h : mn ≤ mx) :
    ∃ n : Nat, (specSuggest mn mx lp ks v).value = toString n ∧
      mn ≤ n ∧ n ≤ mx := by
  unfold specSuggest
  by_cases h1 : mx < keysToNat ks
  · cases lp
    · exact ⟨mx, by simp [h1], h, le_refl mx⟩
    · exact ⟨mn, by simp [h1], le_refl mn, h⟩
  · by_cases h2 : keysToNat ks < mn
    · cases lp
      · exact ⟨mn, by simp [h1, h2], le_refl mn, h⟩
      · exact ⟨mx, by simp [h1, h2], h, le_refl mx⟩
    · exact ⟨keysToNat ks, by simp [h1, h2], by omega, by omega⟩

theorem handleKeyDown_nondigit (f : GetSpinValueNextResult) (s : SpinState)
    (key : Char) (h : key.isDigit = false) :
    handleKeyDown f s key = s := by
  simp [handleKeyDown, h]

theorem handleKeyDown_value (f : GetSpinValueNextResult) (s : SpinState)
    (key : Char) (h : key.isDigit = true) :
    (handleKeyDown f s key).value =
      (f (s.keys ++ [digitOf key]) s.value).value := by
  unfold handleKeyDown
  by_cases hc : (f (s.keys ++ [digitOf key]) s.value).completed = some true <;>
    simp [h, hc]

theorem processKeys_in_range (mn mx : Nat) (lp : Bool) (h : mn ≤ mx)
    (ks : List Char) (s : SpinState)
    (hstart : (∃ n : Nat, s.value = toString n ∧ mn ≤ n ∧ n ≤ mx) ∨
      ∃ c ∈ ks, c.isDigit = true) :
    ∃ n : Nat, (processKeys (specSuggest mn mx lp) s ks).value = toString n ∧
      mn ≤ n ∧ n ≤ mx := by
  induction ks generalizing s with
  | nil =>
    rcases hstart with hv | ⟨c, hc, _⟩
    · simpa [processKeys] using hv
    · exact absurd hc (List.not_mem_nil c)
  | cons c rest ih =>
    rw [processKeys, List.foldl_cons]
    apply ih
    by_cases hd : c.isDigit = true
    · left
      rw [handleKeyDown_value _ _ _ hd]
      exact specSuggest_in_range mn mx lp _ _ h
    · rw [handleKeyDown_nondigit _ _ _ (by simpa using hd)]
      rcases hstart with hv | ⟨d, hdm, hdd⟩
      · exact Or.inl hv
      · rcases List.mem_cons.mp hdm with rfl | hdm
        · exact absurd hdd hd
        · exact Or.inr ⟨d, hdm, hdd⟩

theorem handleKeyDown_congr (f : GetSpinValueNextResult) (s1 s2 : SpinState)
    (hk : s1.keys = s2.keys) (hv : s1.value = s2.value) (key : Char) :
    (handleKeyDown f s1 key).value = (handleKeyDown f s2 key).value ∧
    (handleKeyDown f s1 key).keys = (handleKeyDown f s2 key).keys := by
  by_cases hd : key.isDigit
  · have h1 : s1.keys ++ [digitOf key] = s2.keys ++ [digitOf key] := by
      rw [hk]
    by_cases hc : (f (s2.keys ++ [digitOf key]) s2.value).completed =
        some true <;>
      simp [handleKeyDown, hd, h1, hv, hk, hc]
  · rw [handleKeyDown_nondigit f s1 key (by simpa using hd),
      handleKeyDown_nondigit f s2 key (by simpa using hd)]
    exact ⟨hv, hk⟩

/-- C1: for every digit sequence and configuration (with `min ≤ max`), the
suggestion function only produces value strings whose numeric value lies
in `[min, max]`; with `loopable` a candidate past `max` wraps to `min` and
a candidate below `min` wraps to `max`; and repeated application (folding
the key-down step over any key sequence containing a digit) leaves the
ValueState in range. -/
theorem suggest_range_invariant (mn mx : Nat) (lp : Bool) (ks : List Nat)
    (v : String) (h : mn ≤ mx) (s : SpinState) (kcs : List Char)
    (hd : ∃ c ∈ kcs, c.isDigit = true) :
    (∃ n : Nat, (specSuggest mn mx lp ks v).value = toString n ∧
      mn ≤ n ∧ n ≤ mx) ∧
    (lp = true → mx < keysToNat ks →
      (specSuggest mn mx lp ks v).value = toString mn) ∧
    (lp = true → keysToNat ks < mn →
      (specSuggest mn mx lp ks v).value = toString mx) ∧
    (∃ n : Nat, (processKeys (specSuggest mn mx lp) s kcs).value =
      toString n ∧ mn ≤ n ∧ n ≤ mx) := by
  refine ⟨specSuggest_in_range mn mx lp ks v h, ?_, ?_,
    processKeys_in_range mn mx lp h kcs s (Or.inr hd)⟩
  · intro hlp h1
    simp [specSuggest, h1, hlp]
  · intro hlp h2
    have h1 : ¬ mx < keysToNat ks := by omega
    simp [specSuggest, h1, h2, hlp]

theorem suggest_range_invariant_witness :
    (∃ n : Nat, (specSuggest 0 9 true [7] "").value = toString n ∧
      0 ≤ n ∧ n ≤ 9) ∧
    (true = true → 9 < keysToNat [7] →
      (specSuggest 0 9 true [7] "").value = toString 0) ∧
    (true = true → keysToNat [7] < 0 →
      (specSuggest 0 9 true [7] "").value = toString 9) ∧
    (∃ n : Nat, (processKeys (specSuggest 0 9 true) initState
      ['5', 'x']).value = toString n ∧ 0 ≤ n ∧ n ≤ 9) :=
  suggest_range_invariant 0 9 true [7] "" (by decide) initState
    ['5', 'x'] (by decide)

/-- C2: when processing a digit yields a result with `completed = true`,
the Completion Notifier log grows by exactly that one result (never zero,
never more than one invocation), and the KeySequence is empty immediately
afterwards. -/
theorem completion_fires_once (f : GetSpinValueNextResult) (s : SpinState)
    (key : Char) (hd : key.isDigit = true)
    (hc : (f (s.keys ++ [digitOf key]) s.value).completed = some true) :
    (handleKeyDown f s key).completions =
      s.completions ++ [f (s.keys ++ [digitOf key]) s.value] ∧
    (handleKeyDown f s key).keys = [] := by
  simp [handleKeyDown, hd, hc]

theorem completion_fires_once_witness :
    (handleKeyDown (specSuggest 0 9 true) initState '7').completions =
      initState.completions ++
        [specSuggest 0 9 true (initState.keys ++ [digitOf '7'])
          initState.value] ∧
    (handleKeyDown (specSuggest 0 9 true) initState '7').keys = [] :=
  completion_fires_once (specSuggest 0 9 true) initState '7' (by decide)
    (by decide)

/-- C3: focus events and external programmatic value-set events leave the
KeySequence empty, and both resets are idempotent. -/
theorem reset_clears_keys (s : SpinState) (v : String) :
    (handleFocus s).keys = [] ∧
    (handleChange s v).keys = [] ∧
    handleFocus (handleFocus s) = handleFocus s ∧
    handleChange (handleChange s v) v = handleChange s v := by
  simp [handleFocus, handleChange]

/-- C4: a key-down appends the key to the KeySequence only when it is a
digit — non-digit keys leave the state unchanged — and after an appended
digit the suggestion function is invoked with the full KeySequence and
the prior value string, whose returned value becomes the new ValueState
(the appended KeySequence persists unless the result completed). -/
theorem keydown_accumulates_digits (f : GetSpinValueNextResult)
    (s : SpinState) (key : Char) :
    (key.isDigit = false → handleKeyDown f s key = s) ∧
    (key.isDigit = true →
      (handleKeyDown f s key).value =
        (f (s.keys ++ [digitOf key]) s.value).value ∧
      ((f (s.keys ++ [digitOf key]) s.value).completed ≠ some true →
        (handleKeyDown f s key).keys = s.keys ++ [digitOf key])) := by
  refine ⟨handleKeyDown_nondigit f s key, fun hd => ?_⟩
  refine ⟨handleKeyDown_value f s key hd, fun hc => ?_⟩
  simp [handleKeyDown, hd, hc]

theorem keydown_accumulates_digits_witness :
    handleKeyDown (specSuggest 1 12 false) initState 'x' = initState ∧
    (handleKeyDown (specSuggest 1 12 false) initState '1').value =
      (specSuggest 1 12 false (initState.keys ++ [digitOf '1'])
        initState.value).value :=
  ⟨(keydown_accumulates_digits (specSuggest 1 12 false) initState 'x').1
      (by decide),
    ((keydown_accumulates_digits (specSuggest 1 12 false) initState '1').2
      (by decide)).1⟩

/-- C5: for `min = 0`, `max = 9`, typing the single digit 7 from the
initial state yields the result value "7" with `completed = true` in that
same step, clearing the KeySequence and firing the notifier exactly
once. -/
theorem single_digit_completes :
    specSuggest 0 9 true [7] "" =
      { value := "7", completed := some true } ∧
    (handleKeyDown (specSuggest 0 9 true) initState '7').value = "7" ∧
    (handleKeyDown (specSuggest 0 9 true) initState '7').keys = [] ∧
    (handleKeyDown (specSuggest 0 9 true) initState '7').completions =
      [{ value := "7", completed := some true }] := by
  decide

/-- C6: the suggestion function is pure and deterministic: invocations
with equal (KeySequence, ValueState) arguments return equal results, and
two control states that agree on KeySequence and ValueState (differing in
anything else, such as the notifier history) step to the same ValueState
and KeySequence. -/
theorem suggest_pure_deterministic (f : GetSpinValueNextResult)
    (s1 s2 : SpinState) (hk : s1.keys = s2.keys)
    (hv : s1.value = s2.value) (key : Char) :
    f s1.keys s1.value = f s2.keys s2.value ∧
    (handleKeyDown f s1 key).value = (handleKeyDown f s2 key).value ∧
    (handleKeyDown f s1 key).keys = (handleKeyDown f s2 key).keys := by
  refine ⟨by rw [hk, hv], (handleKeyDown_congr f s1 s2 hk hv key).1,
    (handleKeyDown_congr f s1 s2 hk hv key).2⟩

theorem suggest_pure_deterministic_witness :
    specSuggest 0 9 true initState.keys initState.value =
      specSuggest 0 9 true (SpinState.mk [] "" [{ value := "x" }]).keys
        (SpinState.mk [] "" [{ value := "x" }]).value ∧
    (handleKeyDown (specSuggest 0 9 true) initState '7').value =
      (handleKeyDown (specSuggest 0 9 true)
        (SpinState.mk [] "" [{ value := "x" }]) '7').value ∧
    (handleKeyDown (specSuggest 0 9 true) initState '7').keys =
      (handleKeyDown (specSuggest 0 9 true)
        (SpinState.mk [] "" [{ value := "x" }]) '7').keys :=
  suggest_pure_deterministic (specSuggest 0 9 true) initState
    (SpinState.mk [] "" [{ value := "x" }]) rfl rfl '7'

/-- C8: the `completed` flag of a result is optional; a result with the
flag absent is treated as not completed (the notifier does not fire and
the KeySequence keeps accumulating), `completed: false` does not fire the
notifier either, and the notifier fires exactly when the returned result
has `completed` strictly equal to `true`. -/
theorem absent_completed_not_completed (f : GetSpinValueNextResult)
    (s : SpinState) (key : Char) (hd : key.isDigit = true) :
    ((f (s.keys ++ [digitOf key]) s.value).completed = none →
      (handleKeyDown f s key).completions = s.completions ∧
      (handleKeyDown f s key).keys = s.keys ++ [digitOf key]) ∧
    ((f (s.keys ++ [digitOf key]) s.value).completed = some false →
      (handleKeyDown f s key).completions = s.completions) ∧
    ((f (s.keys ++ [digitOf key]) s.value).completed = some true →
      (handleKeyDown f s key).completions =
        s.completions ++ [f (s.keys ++ [digitOf key]) s.value]) := by
  refine ⟨fun hc => ?_, fun hc => ?_, fun hc => ?_⟩ <;>
    simp [handleKeyDown, hd, hc]

theorem absent_completed_not_completed_witness :
    ((specSuggest 1 12 false (initState.keys ++ [digitOf '1'])
        initState.value).completed = none →
      (handleKeyDown (specSuggest 1 12 false) initState '1').completions =
        initState.completions ∧
      (handleKeyDown (specSuggest 1 12 false) initState '1').keys =
        initState.keys ++ [digitOf '1']) ∧
    ((specSuggest 1 12 false (initState.keys ++ [digitOf '1'])
        initState.value).completed = some false →
      (handleKeyDown (specSuggest 1 12 false) initState '1').completions =
        initState.completions) ∧
    ((specSuggest 1 12 false (initState.keys ++ [digitOf '1'])
        initState.value).completed = some true →
      (handleKeyDown (specSuggest 1 12 false) initState '1').completions =
        initState.completions ++
          [specSuggest 1 12 false (initState.keys ++ [digitOf '1'])
            initState.value]) :=
  absent_completed_not_completed (specSuggest 1 12 false) initState '1'
    (by decide)

/-- Options of the editable spin button, from
`EditableSpinButtonOptions` in src/spinbutton/types.ts; optional fields
are modelled with `Option` (`none` means the caller omitted the
option). -/
structure EditableSpinButtonOptions where
  min : Nat
  max : Nat
  loopable : Option Bool := none
  required : Option Bool := none
  placeholder : Option String := none
  emptyMessage : Option String := none
deriving DecidableEq, Repr

/-- Modelled from the spec: resolution of an omitted `placeholder` to its
documented default, a run of dashes sized to the digit count of `max`
(the resolving hook is not under src/; the default value is documented on
`EditableSpinButtonOptions.placeholder` in src/spinbutton/types.ts as
`"-".repeat(max.toString().length)`). -/
def resolvedPlaceholder (o : EditableSpinButtonOptions) : String :=
  o.placeholder.getD
    (String.mk (List.replicate (toString o.max).length '-'))

/-- Modelled from the spec: resolution of an omitted `emptyMessage` to
its documented default (documented on
`EditableSpinButtonOptions.emptyMessage` in src/spinbutton/types.ts). -/
def resolvedEmptyMessage (o : EditableSpinButtonOptions) : String :=
  o.emptyMessage.getD "Please fill out this field."

/-- C7: when the caller omits `placeholder` the resolved placeholder is a
string of dash characters whose length equals the number of decimal
digits of `max`, and when the caller omits `emptyMessage` it resolves to
"Please fill out this field.". -/
theorem default_placeholder_empty_message (o : EditableSpinButtonOptions)
    (h1 : o.placeholder = none) (h2 : o.emptyMessage = none) :
    resolvedPlaceholder o =
      String.mk (List.replicate (toString o.max).length '-') ∧
    (resolvedPlaceholder o).length = (toString o.max).length ∧
    (∀ c ∈ (resolvedPlaceholder o).data, c = '-') ∧
    resolvedEmptyMessage o = "Please fill out this field." := by
  refine ⟨?_, ?_, ?_, ?_⟩
  · simp [resolvedPlaceholder, h1]
  · simp only [resolvedPlaceholder, h1, Option.getD_none]
    exact List.length_replicate _ _
  · intro c hc
    simp only [resolvedPlaceholder, h1, Option.getD_none] at hc
    exact List.eq_of_mem_replicate hc
  · simp [resolvedEmptyMessage, h2]

theorem default_placeholder_empty_message_witness :
    resolvedPlaceholder { min := 0, max := 59 } = "--" ∧
    resolvedEmptyMessage { min := 0, max := 59 } =
      "Please fill out this field." := by
  have h := default_placeholder_empty_message { min := 0, max := 59 }
    rfl rfl
  exact ⟨h.1.trans (by decide), h.2.2.2⟩

end SpinButton

namespace DocSite

/-- The props that the documentation Link forwards untouched in both
branches (everything not destructured away in
src/packages/documentation/src/components/Link.tsx — `id` and
`className` in the excerpted interface). -/
structure RestProps where
  id : Option String := none
  className : Option String := none
deriving DecidableEq, Repr

/-- The props of the documentation Link component, from `LinkProps` in
src/packages/documentation/src/components/Link.tsx and the Next.js link
props it extends; omitted optional props are `none`. -/
structure LinkProps where
  prefetch : Option Bool := none
  shallow : Option Bool := none
  scroll : Option Bool := none
  replace : Option Bool := none
  as : Option String := none
  passHref : Option Bool := none
  href : String
  rest : RestProps := {}
  children : String := ""
deriving DecidableEq, Repr

/-- The element trees the Link component can return: a plain `RMDLink`
(no navigation props), or a `NextLink` wrapping an `RMDLink` with the
navigation props forwarded. -/
inductive Rendered where
  | rmdLink (rest : RestProps) (href : String) (children : String)
  | nextLink (shallow scroll replaceLink : Option Bool) (href : String)
      (asPath : Option String) (passHref : Option Bool)
      (prefetch : Option Bool) (rest : RestProps) (children : String)
deriving DecidableEq, Repr

/-- The framework fills omitted props from `Link.defaultProps`
(`prefetch: true`, `passHref: true`, `scroll: false`, lines 46-50 of
src/packages/documentation/src/components/Link.tsx) before the component
body runs. -/
def applyDefaultProps (p : LinkProps) : LinkProps :=
  { p with
    prefetch := some (p.prefetch.getD true)
    passHref := some (p.passHref.getD true)
    scroll := some (p.scroll.getD false) }

/-- The `href.startsWith("http")` test of the source, embedded on the
character list of the strings. -/
def strStartsWith (s p : String) : Bool :=
  decide (s.data.take p.data.length = p.data)

/-- The Link component body, from
src/packages/documentation/src/components/Link.tsx: an `href` starting
with "http" renders a plain `RMDLink` from the non-navigation props, the
`href` and the children; any other `href` renders a `NextLink` with the
navigation props forwarded, wrapping an `RMDLink` with the remaining
props and the children. -/
def linkBody (p : LinkProps) : Rendered :=
  if strStartsWith p.href "http" then
    Rendered.rmdLink p.rest p.href p.children
  else
    Rendered.nextLink p.shallow p.scroll p.replace p.href p.as
      p.passHref p.prefetch p.rest p.children

/-- Rendering the Link component: default props applied, then the body. -/
def renderLink (p : LinkProps) : Rendered :=
  linkBody (applyDefaultProps p)

/-- C9: an `href` starting with "http" renders a plain external link that
drops every navigation prop and forwards only the remaining props, the
`href` and the children; any other `href` renders the framework
navigation link with the navigation props forwarded, where omitted
`prefetch`, `passHref` and `scroll` default to `true`, `true` and
`false`. -/
theorem link_branches_and_defaults (p : LinkProps) :
    (strStartsWith p.href "http" = true →
      renderLink p = Rendered.rmdLink p.rest p.href p.children) ∧
    (strStartsWith p.href "http" = false →
      renderLink p = Rendered.nextLink p.shallow
        (some (p.scroll.getD false)) p.replace p.href p.as
        (some (p.passHref.getD true)) (some (p.prefetch.getD true))
        p.rest p.children) := by
  refine ⟨fun h => ?_, fun h => ?_⟩ <;>
    simp [renderLink, linkBody, applyDefaultProps, h]

theorem link_branches_and_defaults_witness :
    renderLink { href := "https://example.com" } =
      Rendered.rmdLink {} "https://example.com" "" ∧
    renderLink { href := "/guides" } =
      Rendered.nextLink none (some false) none "/guides" none
        (some true) (some true) {} "" :=
  ⟨(link_branches_and_defaults { href := "https://example.com" }).1
      (by decide),
    (link_branches_and_defaults { href := "/guides" }).2 (by decide)⟩

/-- Modelled from the spec: the toggle state of the `useToggle` hook of
the utils package (the hook implementation is only re-exported by
src/packages/utils/src/index.ts and is not among the excerpted sources):
`toggled` is the visibility flag, the hook argument is its initial
value. -/
structure ToggleState where
  toggled : Bool
deriving DecidableEq, Repr

/-- Modelled from the spec: `useToggle defaultToggled` starts with
`toggled = defaultToggled`. -/
def useToggle (defaultToggled : Bool) : ToggleState :=
  { toggled := defaultToggled }

/-- Modelled from the spec: the `enable` action of `useToggle` sets the
flag regardless of the prior state. -/
def enable (_s : ToggleState) : ToggleState :=
  { toggled := true }

/-- Modelled from the spec: the `disable` action of `useToggle` clears
the flag regardless of the prior state. -/
def disable (_s : ToggleState) : ToggleState :=
  { toggled := false }

/-- The CodePreview panel starts from `useToggle(false)`
(src/packages/documentation/components/Demos/CodePreview.tsx, line 27). -/
def codePreviewInitial : ToggleState := useToggle false

/-- CodePreview binds its show action to `enable`. -/
def showCode : ToggleState → ToggleState := enable

/-- CodePreview binds its hide action to `disable`. -/
def hideCode : ToggleState → ToggleState := disable

/-- C10: the CodePreview visibility starts hidden, show always yields the
visible state and hide always yields the hidden state whatever the prior
state, both actions are idempotent, and hide after show restores the
initial state. -/
theorem code_preview_toggle (s : ToggleState) :
    codePreviewInitial.toggled = false ∧
    (showCode s).toggled = true ∧
    (hideCode s).toggled = false ∧
    showCode (showCode s) = showCode s ∧
    hideCode (hideCode s) = hideCode s ∧
    hideCode (showCode s) = codePreviewInitial := by
  simp [codePreviewInitial, useToggle, showCode, hideCode, enable,
    disable]

end DocSite
